import Mathlib

/-!
Shallow embedding of the revm core execution engine (Galxe/revm) used to check
the natural-language specification against the source. Machine words are
modelled as natural numbers, byte strings as lists of bytes, and fallible or
panicking Rust code as `Option`-valued functions (`none` = panic).
-/

namespace Revm

/-- Byte used as an opcode: a value in `Fin 256`. -/
abbrev Byte := Fin 256

/-- Account/contract address (20 bytes in the source, opaque here). -/
abbrev Address := Nat

/-- Byte string (`Bytes` in the source). -/
abbrev Bytes := List Byte

/-- Result discriminant of one instruction, `InstructionResult` in
`crates/interpreter`.  Only the variants the analysed code distinguishes are
listed; `Continue` is the loop-continuation marker. -/
inductive InstructionResult where
  | Continue
  | Stop
  | Return
  | SelfDestruct
  | Revert
  | CallOrCreate
  | StackOverflow
  | StackUnderflow
  | OutOfGas
  | InvalidJump
  | CreateCollision
  | FatalExternalError
  deriving DecidableEq, Repr

/-- Mirrors `InstructionResult::is_continue`. -/
def InstructionResult.is_continue : InstructionResult → Bool
  | .Continue => true
  | _ => false

/-- Gas meter `(limit, remaining, refunded)`; `spent = limit - remaining`.
The structure is `Gas` in `crates/interpreter`. -/
structure Gas where
  limit : Nat
  remaining : Nat
  refunded : Int
  deriving DecidableEq, Repr

/-- Modelled from the spec: `Gas::spent` is not under `src/`; §4.3 gives
`spent + remaining = limit`, so `spent = limit - remaining`. -/
def Gas.spent (g : Gas) : Nat := g.limit - g.remaining

/-- Modelled from the spec: `Gas::record_refund(i: signed)` is not under
`src/`; §4.3 lists it as the signed accumulator of the refund counter. -/
def Gas.record_refund (g : Gas) (i : Int) : Gas :=
  { g with refunded := g.refunded + i }

/-- Modelled from the spec: `Gas::set_final_refund(london_cap)` is not under
`src/`; §4.3 says it clamps the refund to `spent/5` (London+) or `spent/2`
(pre-London). -/
def Gas.set_final_refund (g : Gas) (london_cap : Bool) : Gas :=
  let quotient : Nat := if london_cap then 5 else 2
  { g with refunded := min g.refunded ((g.spent / quotient : Nat) : Int) }

/-- Modelled from the spec: `Gas::record_cost(c) → ok|OutOfGas` is not under
`src/`; §4.3. `none` is the OutOfGas outcome. -/
def Gas.record_cost (g : Gas) (cost : Nat) : Option Gas :=
  if cost ≤ g.remaining then some { g with remaining := g.remaining - cost }
  else none

/-- Result record produced by a finished interpreter,
`InterpreterResult { result, output, gas }`. -/
structure InterpreterResult where
  result : InstructionResult
  output : Bytes
  gas : Gas
  deriving DecidableEq, Repr

/-- Action yielded by the interpreter loop, `InterpreterAction`: either
nothing is pending (`None`), a finished frame (`Return`), or a request for a
child frame. The child-request payload is irrelevant to the analysed claims
and is kept opaque as a tag. -/
inductive InterpreterAction where
  | None
  | Return (result : InterpreterResult)
  | NewFrame (tag : Nat)
  deriving DecidableEq, Repr

/-- Mirrors `InterpreterAction::is_some` (everything except `None`). -/
def InterpreterAction.is_some : InterpreterAction → Bool
  | .None => false
  | _ => true

/-- Bytecode with a program-counter cursor, `ExtBytecode`. The analysis pads
bytecode with `STOP` (opcode 0), so reading past the end yields 0. -/
structure ExtBytecode where
  bytecode : List Byte
  pc : Nat
  deriving DecidableEq, Repr

/-- Mirrors `ExtBytecode::opcode`: the byte at the current program counter
(`STOP` = 0 beyond the padded end). -/
def ExtBytecode.opcode (b : ExtBytecode) : Byte :=
  b.bytecode.getD b.pc 0

/-- Mirrors `ExtBytecode::relative_jump(offset)` for the non-negative offsets
the interpreter step uses. -/
def ExtBytecode.relative_jump (b : ExtBytecode) (offset : Nat) : ExtBytecode :=
  { b with pc := b.pc + offset }

/-- Loop-control state of the interpreter: instruction result, pending next
action and the gas meter (`LoopControl` in `crates/interpreter`). -/
structure LoopControlSt where
  instruction_result : InstructionResult
  next_action : InterpreterAction
  gas : Gas
  deriving DecidableEq, Repr

/-- Mirrors `LoopControl::set_next_action(action, result)`. -/
def LoopControlSt.set_next_action (c : LoopControlSt) (action : InterpreterAction)
    (result : InstructionResult) : LoopControlSt :=
  { c with next_action := action, instruction_result := result }

/-- Mirrors `LoopControl::set_instruction_result`. -/
def LoopControlSt.set_instruction_result (c : LoopControlSt)
    (result : InstructionResult) : LoopControlSt :=
  { c with instruction_result := result }

/-- The interpreter state `NewInterpreter` restricted to the wires the
analysed code reads: bytecode cursor, word stack, memory buffer and loop
control. -/
structure NewInterpreter where
  bytecode : ExtBytecode
  stack : List Nat
  memory : List Byte
  control : LoopControlSt
  deriving DecidableEq, Repr

/-- Stack capacity, `STACK_LIMIT` = 1024. -/
def STACK_LIMIT : Nat := 1024

/-- Mirrors `Stack::push`: prepend the value (top of stack at the head), or
fail when the stack is full. -/
def Stack.push (s : List Nat) (value : Nat) : Option (List Nat) :=
  if s.length < STACK_LIMIT then some (value :: s) else none

/-- One fetch–dispatch step of the interpreter, `NewInterpreter::step`: read
the opcode at the current program counter, advance the program counter by
one, then run the table entry for that opcode on interpreter and host. -/
def NewInterpreter.step {H : Type}
    (table : Byte → NewInterpreter × H → NewInterpreter × H)
    (st : NewInterpreter × H) : NewInterpreter × H :=
  let opcode := st.1.bytecode.opcode
  let interp := { st.1 with bytecode := st.1.bytecode.relative_jump 1 }
  table opcode (interp, st.2)

/-- The `while control.instruction_result().is_continue()` loop of
`NewInterpreter::run`, made total with explicit fuel. -/
def NewInterpreter.runLoop {H : Type}
    (table : Byte → NewInterpreter × H → NewInterpreter × H) :
    Nat → NewInterpreter × H → NewInterpreter × H
  | 0, st => st
  | fuel + 1, st =>
    if st.1.control.instruction_result.is_continue then
      NewInterpreter.runLoop table fuel (NewInterpreter.step table st)
    else st

/-- The first statement of `NewInterpreter::run`:
`self.control.set_next_action(InterpreterAction::None, InstructionResult::Continue)`. -/
def NewInterpreter.run_start {H : Type} (st : NewInterpreter × H) :
    NewInterpreter × H :=
  ({ st.1 with control := st.1.control.set_next_action .None .Continue }, st.2)

/-- Mirrors `NewInterpreter::run`: reset the loop control to
`(None, Continue)`, run the step loop, then yield the pending next action if
one was set and otherwise a `Return` action with the current instruction
result, empty output and current gas.  Also returns the final interpreter and
host states (the next action is taken out of the control). -/
def NewInterpreter.run {H : Type}
    (table : Byte → NewInterpreter × H → NewInterpreter × H)
    (fuel : Nat) (st : NewInterpreter × H) :
    InterpreterAction × (NewInterpreter × H) :=
  let stF := NewInterpreter.runLoop table fuel (NewInterpreter.run_start st)
  let action := stF.1.control.next_action
  let stT := ({ stF.1 with control := { stF.1.control with next_action := .None } }, stF.2)
  if action.is_some then (action, stT)
  else
    (.Return { result := stF.1.control.instruction_result
               output := []
               gas := stF.1.control.gas }, stT)

/-! Instruction handlers from `crates/interpreter/src/instructions/tx_info.rs`. -/

namespace TxInfo

/-- Transaction environment as seen by `gasprice`: the effective gas price is
a function of the block basefee (`Transaction::effective_gas_price`). -/
structure TxEnv where
  effective_gas_price : Nat → Nat

/-- Block environment as seen by `gasprice`. -/
structure BlockEnv where
  basefee : Nat

/-- Environment `{block, tx}` returned by `host.env()`. -/
structure Env where
  block : BlockEnv
  tx : TxEnv

/-- Host restricted to what `gasprice` consumes: the environment. -/
structure GaspriceHost where
  env : Env

/-- Modelled from the spec: the gas constant `gas::BASE` is not under `src/`;
§4.6 charges a static gas component, BASE being the 2-gas tier. -/
def gasBASE : Nat := 2

/-- Mirrors the `gasprice` opcode handler: charge BASE gas (the `gas!`
macro), then push the transaction's effective gas price computed against the
block basefee, then push the constant zero (each push via the `push!` macro,
which fails with StackOverflow when the stack is full).  The `gas!` and
`push!` macro bodies are not under `src/` and are modelled from the spec
(§4.1, §4.3, §4.6: check, charge, short-circuit with a precise
`InstructionResult`). -/
def gasprice (interpreter : NewInterpreter) (host : GaspriceHost) : NewInterpreter :=
  match interpreter.control.gas.record_cost gasBASE with
  | none =>
    { interpreter with control := interpreter.control.set_instruction_result .OutOfGas }
  | some g =>
    let interpreter := { interpreter with control := { interpreter.control with gas := g } }
    let env := host.env
    let basefee := env.block.basefee
    match Stack.push interpreter.stack (env.tx.effective_gas_price basefee) with
    | none =>
      { interpreter with control := interpreter.control.set_instruction_result .StackOverflow }
    | some s =>
      let interpreter := { interpreter with stack := s }
      match Stack.push interpreter.stack 0 with
      | none =>
        { interpreter with control := interpreter.control.set_instruction_result .StackOverflow }
      | some s2 => { interpreter with stack := s2 }

end TxInfo

/-! Frames, from `crates/context/src/frame.rs`. -/

/-- Journal checkpoint token (`JournalCheckpoint`); its two indices are not
inspected by the analysed code. -/
structure JournalCheckpoint where
  log_i : Nat
  journal_i : Nat
  deriving DecidableEq, Repr

/-- Frame payload `FrameData { checkpoint, interpreter }`, generic over the
interpreter wire `W`. -/
structure FrameData (W : Type) where
  checkpoint : JournalCheckpoint
  interpreter : W

/-- Mirrors `CallFrame`. -/
structure CallFrame (W : Type) where
  return_memory_range : Nat × Nat
  frame_data : FrameData W

/-- Mirrors `CreateFrame`. -/
structure CreateFrame (W : Type) where
  created_address : Address
  frame_data : FrameData W

/-- Mirrors `EOFCreateFrame`; note it also stores a `created_address`. -/
structure EOFCreateFrame (W : Type) where
  created_address : Address
  frame_data : FrameData W

/-- Mirrors the call-stack frame enum `Frame`. -/
inductive Frame (W : Type) where
  | Call (frame : CallFrame W)
  | Create (frame : CreateFrame W)
  | EOFCreate (frame : EOFCreateFrame W)

/-- Mirrors `Frame::is_call`. -/
def Frame.is_call {W : Type} : Frame W → Bool
  | .Call _ => true
  | _ => false

/-- Mirrors `Frame::is_create`. -/
def Frame.is_create {W : Type} : Frame W → Bool
  | .Create _ => true
  | _ => false

/-- Mirrors `Frame::created_address`: `Some` for a `Create` frame, `None`
for every other frame kind. -/
def Frame.created_address {W : Type} : Frame W → Option Address
  | .Create frame => some frame.created_address
  | _ => none

/-! Optimism deposit transactions, from
`crates/optimism/src/transaction/{deposit,abstraction}.rs` and
`crates/wiring/transaction/src/common.rs`. -/

namespace Op

/-- Mirrors `TxKind`: call target or contract creation. -/
inductive TxKind where
  | Create
  | Call (address : Address)
  deriving DecidableEq, Repr

/-- Mirrors the `TxDeposit` struct. -/
structure TxDeposit where
  source_hash : Nat
  from_address : Address
  to_kind : TxKind
  mint : Option Nat
  value : Nat
  gas_limit : Nat
  is_system_transaction : Bool
  input : Bytes
  deriving DecidableEq, Repr

/-- Mirrors `CommonTxFields::caller` for `TxDeposit`. -/
def TxDeposit.caller (tx : TxDeposit) : Address := tx.from_address

/-- Mirrors `CommonTxFields::gas_limit` for `TxDeposit`. -/
def TxDeposit.tx_gas_limit (tx : TxDeposit) : Nat := tx.gas_limit

/-- Mirrors `CommonTxFields::value` for `TxDeposit`. -/
def TxDeposit.tx_value (tx : TxDeposit) : Nat := tx.value

/-- Mirrors `CommonTxFields::nonce` for `TxDeposit`: the body is
unconditionally `panic!("There is no nonce in a deposit transaction")`,
embedded as `none`. -/
def TxDeposit.nonce (_tx : TxDeposit) : Option Nat := none

/-- Mirrors the `OpTransaction` enum over a base transaction type `T`. -/
inductive OpTransaction (T : Type) where
  | Base (tx : T) (enveloped_tx : Option Bytes)
  | Deposit (deposit : TxDeposit)

/-- Mirrors `Transaction::legacy` for `OpTransaction`: delegates to the base
transaction's accessor (passed explicitly, since `T` is a trait object in the
source) and panics (`none`) on a deposit transaction. -/
def OpTransaction.legacy {T L : Type} (tx_legacy : T → L) :
    OpTransaction T → Option L
  | .Base tx _ => some (tx_legacy tx)
  | .Deposit _ => none

/-- Mirrors `Transaction::eip2930` for `OpTransaction`. -/
def OpTransaction.eip2930 {T L : Type} (tx_eip2930 : T → L) :
    OpTransaction T → Option L
  | .Base tx _ => some (tx_eip2930 tx)
  | .Deposit _ => none

/-- Mirrors `Transaction::eip1559` for `OpTransaction`. -/
def OpTransaction.eip1559 {T L : Type} (tx_eip1559 : T → L) :
    OpTransaction T → Option L
  | .Base tx _ => some (tx_eip1559 tx)
  | .Deposit _ => none

/-- Mirrors `Transaction::eip4844` for `OpTransaction`. -/
def OpTransaction.eip4844 {T L : Type} (tx_eip4844 : T → L) :
    OpTransaction T → Option L
  | .Base tx _ => some (tx_eip4844 tx)
  | .Deposit _ => none

/-- Mirrors `Transaction::eip7702` for `OpTransaction`. -/
def OpTransaction.eip7702 {T L : Type} (tx_eip7702 : T → L) :
    OpTransaction T → Option L
  | .Base tx _ => some (tx_eip7702 tx)
  | .Deposit _ => none

/-- Mirrors `OpTxTrait::deposit` for `OpTransaction`: panics (`none`) on a
base transaction. -/
def OpTransaction.deposit {T : Type} : OpTransaction T → Option TxDeposit
  | .Base _ _ => none
  | .Deposit d => some d

/-- Mirrors `OpTxTrait::enveloped_tx` for `OpTransaction`. -/
def OpTransaction.enveloped_tx {T : Type} : OpTransaction T → Option Bytes
  | .Base _ enveloped => enveloped
  | .Deposit _ => none

end Op

/-! Hardfork identifiers and the post-execution handler, from
`crates/revm/src/handler/mainnet/post_execution.rs`. -/

/-- Modelled from the spec: `SpecId` lives in the `specification` crate, not
under `src/`; §Design notes say to encode the active spec as a scalar
compared against named thresholds (`spec_id ≥ LONDON`). -/
inductive SpecId where
  | FRONTIER
  | HOMESTEAD
  | TANGERINE
  | SPURIOUS_DRAGON
  | BYZANTIUM
  | ISTANBUL
  | BERLIN
  | LONDON
  | MERGE
  | SHANGHAI
  | CANCUN
  | PRAGUE
  deriving DecidableEq, Repr

/-- Scalar position of a hardfork in activation order. -/
def SpecId.num : SpecId → Nat
  | .FRONTIER => 0
  | .HOMESTEAD => 1
  | .TANGERINE => 2
  | .SPURIOUS_DRAGON => 3
  | .BYZANTIUM => 4
  | .ISTANBUL => 5
  | .BERLIN => 6
  | .LONDON => 7
  | .MERGE => 8
  | .SHANGHAI => 9
  | .CANCUN => 10
  | .PRAGUE => 11

/-- Modelled from the spec: `SpecId::is_enabled_in(other)` is the scalar
comparison `self ≥ other`. -/
def SpecId.is_enabled_in (spec other : SpecId) : Bool :=
  other.num ≤ spec.num

/-- Mirrors the `refund` post-execution step: add the EIP-7702 refund to the
refund counter, then apply the final refund cap, with the London cap exactly
when the active spec enables LONDON. -/
def refund (spec : SpecId) (gas : Gas) (eip7702_refund : Int) : Gas :=
  (gas.record_refund eip7702_refund).set_final_refund (spec.is_enabled_in .LONDON)

namespace PostExecution

/-- Emitted log `(address, topics, data)`. -/
structure Log where
  address : Address
  topics : List Nat
  data : Bytes
  deriving DecidableEq, Repr

/-- Account as the post-execution handler sees it: balance plus the touch
flag set by `mark_touch`. -/
structure Account where
  balance : Nat
  touched : Bool
  deriving DecidableEq, Repr

/-- Journal entry variants the inspector's selfdestruct wrapper matches on;
all remaining variants are collapsed into `OtherEntry`. -/
inductive JournalEntry where
  | AccountDestroyed (address target : Address) (had_balance : Nat)
  | BalanceTransfer (from_address to_address : Address) (balance : Nat)
  | OtherEntry
  deriving DecidableEq, Repr

/-- Journaled state restricted to what the analysed handlers read: the
account overlay, the transaction log buffer, and the per-depth journal. -/
structure JournaledState where
  accounts : List (Address × Account)
  logs : List Log
  journal : List (List JournalEntry)
  deriving DecidableEq, Repr

/-- Look an account up in the overlay. -/
def JournaledState.find_account (js : JournaledState) (addr : Address) : Option Account :=
  (js.accounts.find? (fun p => p.1 = addr)).map Prod.snd

/-- Write an account into the overlay, replacing an existing entry. -/
def JournaledState.store_account (js : JournaledState) (addr : Address)
    (acc : Account) : JournaledState :=
  let rec go : List (Address × Account) → List (Address × Account)
    | [] => [(addr, acc)]
    | (a, v) :: rest => if a = addr then (addr, acc) :: rest else (a, v) :: go rest
  { js with accounts := go js.accounts }

/-- Mirrors `JournaledState::finalize`: return the present state and the
transaction logs. -/
def JournaledState.finalize (js : JournaledState) :
    List (Address × Account) × List Log :=
  (js.accounts, js.logs)

/-- Mirrors `JournaledState::load_account(addr, &mut db)`: answer from the
overlay first, otherwise consult the backing database — whose lookup is
fallible, and the `?` in the callers propagates its error. -/
def JournaledState.load_account {E : Type} (js : JournaledState)
    (db : Address → Except E Account) (addr : Address) :
    Except E (JournaledState × Account) :=
  match js.find_account addr with
  | some acc => .ok (js, acc)
  | none =>
    match db addr with
    | .error e => .error e
    | .ok acc => .ok (js.store_account addr acc, acc)

/-- Block environment of the post-execution handler. -/
structure BlockEnv where
  coinbase : Address
  basefee : Nat

/-- Environment `{block, effective_gas_price}`; the effective gas price is a
derived transaction attribute, modelled as a value. -/
structure Env where
  block : BlockEnv
  effective_gas_price : Nat

/-- Execution context as the post-execution handler sees it: journaled
state, the sticky database-error slot, the environment and the backing
database (a fallible account lookup). -/
structure Context (E : Type) where
  journaled_state : JournaledState
  error : Option E
  env : Env
  db : Address → Except E Account

/-- Mirrors `take_error`: move the sticky error out of the context. -/
def Context.take_error {E : Type} (ctx : Context E) : Option E × Context E :=
  (ctx.error, { ctx with error := none })

/-- Saturating addition on 256-bit words. -/
def u256_saturating_add (a b : Nat) : Nat := min (a + b) (2 ^ 256 - 1)

/-- Mirrors `reward_beneficiary`: load the coinbase account
(`load_account(beneficiary, &mut db)?`, so a database failure is propagated
as an error), mark it touched, and add the rewards to its balance with
saturation. -/
def reward_beneficiary {E : Type} (ctx : Context E) (rewards : Nat) :
    Except E (Context E) :=
  let beneficiary := ctx.env.block.coinbase
  match ctx.journaled_state.load_account ctx.db beneficiary with
  | .error e => .error e
  | .ok (js, acc) =>
    let acc := { acc with
      touched := true
      balance := u256_saturating_add acc.balance rewards }
    .ok { ctx with journaled_state := js.store_account beneficiary acc }

/-- Mirrors `reward`: the coinbase price discards the basefee from London on
(EIP-1559), and the reward is that price times the refund-adjusted spent
gas. -/
def reward (spec : SpecId) (env : Env) (gas : Gas) : Nat :=
  let effective_gas_price := env.effective_gas_price
  let coinbase_gas_price :=
    if spec.is_enabled_in .LONDON then effective_gas_price - env.block.basefee
    else effective_gas_price
  coinbase_gas_price * (gas.spent - gas.refunded.toNat)

/-- Mirrors `CallOutcome { result, memory_offset }`. -/
structure CallOutcome where
  result : InterpreterResult
  memory_offset : Nat × Nat
  deriving DecidableEq, Repr

/-- Mirrors `CreateOutcome { result, address }`. -/
structure CreateOutcome where
  result : InterpreterResult
  address : Option Address
  deriving DecidableEq, Repr

/-- Mirrors the `FrameResult` enum from `crates/context/src/frame.rs`. -/
inductive FrameResult where
  | Call (outcome : CallOutcome)
  | Create (outcome : CreateOutcome)
  | EOFCreate (outcome : CreateOutcome)
  deriving DecidableEq, Repr

/-- Mirrors `FrameResult::into_interpreter_result`. -/
def FrameResult.into_interpreter_result : FrameResult → InterpreterResult
  | .Call outcome => outcome.result
  | .Create outcome => outcome.result
  | .EOFCreate outcome => outcome.result

/-- Transaction output `Output`, from the wiring result module: call data or
create data plus the created address. -/
inductive Output where
  | Call (data : Bytes)
  | Create (data : Bytes) (address : Option Address)
  deriving DecidableEq, Repr

/-- Mirrors `Output::into_data`. -/
def Output.into_data : Output → Bytes
  | .Call data => data
  | .Create data _ => data

/-- Mirrors `FrameResult::output`. -/
def FrameResult.output : FrameResult → Output
  | .Call outcome => .Call outcome.result.output
  | .Create outcome => .Create outcome.result.output outcome.address
  | .EOFCreate outcome => .Create outcome.result.output outcome.address

/-- Mirrors `FrameResult::gas`. -/
def FrameResult.gas : FrameResult → Gas
  | .Call outcome => outcome.result.gas
  | .Create outcome => outcome.result.gas
  | .EOFCreate outcome => outcome.result.gas

/-- Success reasons of a completed transaction (§6.2). -/
inductive SuccessReason where
  | Stop
  | Return
  | SelfDestruct
  | EofReturnContract
  deriving DecidableEq, Repr

/-- Halt reasons of a completed transaction (§6.2). -/
inductive HaltReason where
  | OutOfGas
  | StackOverflow
  | StackUnderflow
  | InvalidJump
  | CreateCollision
  deriving DecidableEq, Repr

/-- Mirrors `SuccessOrHalt`. -/
inductive SuccessOrHalt where
  | Success (reason : SuccessReason)
  | Revert
  | Halt (reason : HaltReason)
  | FatalExternalError
  | Internal
  deriving DecidableEq, Repr

/-- Modelled from the spec: the `From<InstructionResult> for SuccessOrHalt`
conversion is not under `src/`; §6.2 and §7 give the taxonomy (Stop, Return,
SelfDestruct succeed; Revert reverts; interpreter errors halt; Continue and
CallOrCreate are internal flags). -/
def toSuccessOrHalt : InstructionResult → SuccessOrHalt
  | .Continue => .Internal
  | .CallOrCreate => .Internal
  | .Stop => .Success .Stop
  | .Return => .Success .Return
  | .SelfDestruct => .Success .SelfDestruct
  | .Revert => .Revert
  | .StackOverflow => .Halt .StackOverflow
  | .StackUnderflow => .Halt .StackUnderflow
  | .OutOfGas => .Halt .OutOfGas
  | .InvalidJump => .Halt .InvalidJump
  | .CreateCollision => .Halt .CreateCollision
  | .FatalExternalError => .FatalExternalError

/-- Mirrors `ExecutionResult` (§6.2): logs are carried only by the `Success`
variant. -/
inductive ExecutionResult where
  | Success (reason : SuccessReason) (gas_used : Nat) (gas_refunded : Nat)
      (logs : List Log) (output : Output)
  | Revert (gas_used : Nat) (output : Bytes)
  | Halt (reason : HaltReason) (gas_used : Nat)
  deriving DecidableEq, Repr

/-- Mirrors the `ResultAndState` struct exactly as the source constructs it:
`ResultAndState { result, state, rewards }`. -/
structure ResultAndState where
  result : ExecutionResult
  state : List (Address × Account)
  rewards : Nat
  deriving DecidableEq, Repr

/-- Projection, following the spec's words, of the transaction logs carried
by a returned `ResultAndState`: the logs inside a `Success` result, and
nothing otherwise (the struct itself has no logs field). -/
def ExecutionResult.logs_of : ExecutionResult → List Log
  | .Success _ _ _ logs _ => logs
  | _ => []

/-- Return value of the `output` handler: `Ok`, a propagated error (`?`), or
a `panic!` on the internal flags. -/
inductive OutputResult (E : Type) where
  | ok (value : ResultAndState)
  | err (error : E)
  | panicked
  deriving DecidableEq, Repr

/-- Mirrors the post-execution `output` handler: compute rewards; unless
lazy, reward the beneficiary and propagate its database error with `?`
(`reward_beneficiary(context, rewards)?`); then propagate a pending sticky
error (`take_error()?`); then build the execution result from the frame
result and finalize the journaled state into
`ResultAndState { result, state, rewards }`. -/
def output {E : Type} (spec : SpecId) (ctx : Context E) (result : FrameResult)
    (lazy_reward : Bool) : Context E × OutputResult E :=
  let rewards := reward spec ctx.env result.gas
  match (if lazy_reward then Except.ok ctx else reward_beneficiary ctx rewards) with
  | .error e => (ctx, .err e)
  | .ok ctx =>
  match ctx.take_error with
  | (some e, ctx) => (ctx, .err e)
  | (none, ctx) =>
    let gas_refunded := result.gas.refunded.toNat
    let final_gas_used := result.gas.spent - gas_refunded
    let out := result.output
    let instruction_result := result.into_interpreter_result
    let (state, logs) := ctx.journaled_state.finalize
    match toSuccessOrHalt instruction_result.result with
    | .Success reason =>
      (ctx, .ok { result := .Success reason final_gas_used gas_refunded logs out
                  state := state
                  rewards := rewards })
    | .Revert =>
      (ctx, .ok { result := .Revert final_gas_used out.into_data
                  state := state
                  rewards := rewards })
    | .Halt reason =>
      (ctx, .ok { result := .Halt reason final_gas_used
                  state := state
                  rewards := rewards })
    | .FatalExternalError => (ctx, .panicked)
    | .Internal => (ctx, .panicked)

end PostExecution

/-! Inspector machinery, from `crates/inspector/src/inspector.rs`. -/

namespace Insp

open PostExecution

/-- The report line `StepPrintInspector::step` prints for one step; each
field is the expression passed to `println!`. -/
structure StepLine where
  depth : Nat
  pc : Nat
  gas_remaining : Nat
  opcode : Byte
  refund : Nat
  stack : List Nat
  data_size : Nat
  deriving DecidableEq, Repr

/-- Mirrors `StepPrintInspector::step`: the printed depth, gas and refund are
the literal constants of the source (the gas-inspector reads are commented
out there). -/
def StepPrintInspector.step (interp : NewInterpreter) : StepLine :=
  let opcode := interp.bytecode.opcode
  let gas_remaining := 0
  let memory_size := interp.memory.length
  { depth := 0
    pc := interp.bytecode.pc
    gas_remaining := gas_remaining
    opcode := opcode
    refund := 0
    stack := interp.stack
    data_size := memory_size }

/-- Hook invocations observable on an inspector during instruction
execution. -/
inductive InspEvent where
  | step
  | step_end
  | log_hook (log : Log)
  | selfdestruct_hook (contract target : Address) (value : Nat)
  deriving DecidableEq, Repr

/-- State threaded through an inspector-wrapped instruction: the interpreter,
the journaled state reached through the host, and the trace of inspector
hook invocations. -/
structure InspState where
  interp : NewInterpreter
  journal : JournaledState
  events : List InspEvent
  deriving DecidableEq, Repr

/-- Record one inspector hook invocation. -/
def InspState.emit (st : InspState) (e : InspEvent) : InspState :=
  { st with events := st.events ++ [e] }

/-- An entry of the inspector instruction table,
`InspectorInstruction { instruction }`; the wrapped function may panic
(`none`), e.g. on the `unwrap` in the log wrapper. -/
structure InspectorInstruction where
  instruction : InspState → Option InspState

/-- Mirrors `InspectorInstruction::exec`: invoke the step hook, run the
wrapped instruction, then invoke the step-end hook. -/
def InspectorInstruction.exec (insn : InspectorInstruction) (st : InspState) :
    Option InspState :=
  match insn.instruction (st.emit .step) with
  | none => none
  | some st2 => some (st2.emit .step_end)

/-- Mirrors the `inspector_log` wrapper: run the previous instruction; if
the instruction result is `Continue`, hand the most recently emitted log to
the inspector's log hook (the source `unwrap`s, so an empty log buffer is a
panic). -/
def inspector_log (prev : InspState → Option InspState) (st : InspState) :
    Option InspState :=
  match prev st with
  | none => none
  | some st2 =>
    if st2.interp.control.instruction_result = .Continue then
      match st2.journal.logs.getLast? with
      | some last_log => some (st2.emit (.log_hook last_log))
      | none => none
    else some st2

/-- Mirrors the SELFDESTRUCT table entry: run the selfdestruct instruction;
when it results in `SelfDestruct`, report the destruction parameters from
the last entry of the last sub-journal to the selfdestruct hook. -/
def selfdestruct_entry (sd : InspState → Option InspState) (st : InspState) :
    Option InspState :=
  match sd st with
  | none => none
  | some st2 =>
    if st2.interp.control.instruction_result = .SelfDestruct then
      match st2.journal.journal.getLast? with
      | none => none
      | some entries =>
        match entries.getLast? with
        | some (.AccountDestroyed address target had_balance) =>
          some (st2.emit (.selfdestruct_hook address target had_balance))
        | some (.BalanceTransfer from_address to_address balance) =>
          some (st2.emit (.selfdestruct_hook from_address to_address balance))
        | _ => some st2
    else some st2

/-- Opcode of LOGn, n ∈ [0,4]: `0xA0 + n`. -/
def log_opcode (n : Fin 5) : Byte := ⟨0xA0 + n.val, by omega⟩

/-- Opcode of SELFDESTRUCT, `0xFF`. -/
def SELFDESTRUCT_OP : Byte := 0xFF

/-- Mirrors `InspectorInstructionProvider::new`: wrap every entry of the
main instruction table, then overwrite the LOG0..LOG4 entries with the
log-hook wrapper around the corresponding `log::<N>` instruction and the
SELFDESTRUCT entry with the selfdestruct wrapper.  The base `log::<N>` and
`selfdestruct` instruction bodies live outside `src/` and are parameters. -/
def InspectorInstructionProvider.new
    (main_table : Byte → InspState → Option InspState)
    (log_instr : Fin 5 → InspState → Option InspState)
    (sd_instr : InspState → Option InspState) :
    Byte → InspectorInstruction := fun op =>
  if op = log_opcode 0 then ⟨inspector_log (log_instr 0)⟩
  else if op = log_opcode 1 then ⟨inspector_log (log_instr 1)⟩
  else if op = log_opcode 2 then ⟨inspector_log (log_instr 2)⟩
  else if op = log_opcode 3 then ⟨inspector_log (log_instr 3)⟩
  else if op = log_opcode 4 then ⟨inspector_log (log_instr 4)⟩
  else if op = SELFDESTRUCT_OP then ⟨selfdestruct_entry sd_instr⟩
  else ⟨main_table op⟩

/-- Frame input `FrameInput`, generic over the call, create, and EOF-create
input payloads (their fields are not read by the analysed code). -/
inductive FrameInput (CI CRI EI : Type) where
  | Call (inputs : CI)
  | Create (inputs : CRI)
  | EOFCreate (inputs : EI)

/-- The per-kind frame-start hooks of an inspector (`call`, `create`,
`eofcreate`): `some` is a synthetic outcome overriding the frame. -/
structure InspectorHooks (CI CRI EI : Type) where
  call : CI → Option CallOutcome
  create : CRI → Option CreateOutcome
  eofcreate : EI → Option CreateOutcome

/-- Mirrors `InspectorContext`: the wrapped inner context, the inspector,
and the stack of recorded frame inputs. -/
structure InspectorContext (CI CRI EI Inner : Type) where
  inner : Inner
  inspector : InspectorHooks CI CRI EI
  frame_input_stack : List (FrameInput CI CRI EI)

/-- The match of `InspectorContext::frame_start` dispatching the frame input
to the matching inspector hook and wrapping any synthetic outcome in a
`FrameResult` of the same kind. -/
def InspectorContext.frame_start_hook {CI CRI EI Inner : Type}
    (ctx : InspectorContext CI CRI EI Inner) (frame_input : FrameInput CI CRI EI) :
    Option FrameResult :=
  match frame_input with
  | .Call i => (ctx.inspector.call i).map FrameResult.Call
  | .Create i => (ctx.inspector.create i).map FrameResult.Create
  | .EOFCreate i => (ctx.inspector.eofcreate i).map FrameResult.EOFCreate

/-- Mirrors `InspectorContext::frame_start`: dispatch the frame input to the
matching inspector hook; a synthetic result is returned at once, otherwise
the frame input is pushed onto the recorded stack. -/
def InspectorContext.frame_start {CI CRI EI Inner : Type}
    (ctx : InspectorContext CI CRI EI Inner) (frame_input : FrameInput CI CRI EI) :
    InspectorContext CI CRI EI Inner × Option FrameResult :=
  match ctx.frame_start_hook frame_input with
  | some res => (ctx, some res)
  | none =>
    ({ ctx with frame_input_stack := frame_input :: ctx.frame_input_stack }, none)

/-- An invocation of a frame-end inspector hook, pairing the recorded frame
input with the frame's outcome (`call_end`, `create_end`,
`eofcreate_end`). -/
inductive EndHookCall (CI CRI EI : Type) where
  | call_end (inputs : CI) (outcome : CallOutcome)
  | create_end (inputs : CRI) (outcome : CreateOutcome)
  | eofcreate_end (inputs : EI) (outcome : CreateOutcome)

/-- Mirrors `InspectorContext::frame_end`: pop the recorded frame input and
hand it, with the outcome, to the matching end hook; popping an empty stack
or a mismatched kind is a panic (`none`). -/
def InspectorContext.frame_end {CI CRI EI Inner : Type}
    (ctx : InspectorContext CI CRI EI Inner) (frame_output : FrameResult) :
    Option (InspectorContext CI CRI EI Inner × EndHookCall CI CRI EI) :=
  match ctx.frame_input_stack with
  | [] => none
  | frame_input :: rest =>
    let ctx := { ctx with frame_input_stack := rest }
    match frame_output, frame_input with
    | .Call outcome, .Call i => some (ctx, .call_end i outcome)
    | .Create outcome, .Create i => some (ctx, .create_end i outcome)
    | .EOFCreate outcome, .EOFCreate i => some (ctx, .eofcreate_end i outcome)
    | _, _ => none

/-- Pairing of a frame input with a frame outcome of the same kind, the
invocation the matching frame-end hook receives. -/
def end_hook_of {CI CRI EI : Type} (frame_input : FrameInput CI CRI EI)
    (frame_output : FrameResult) : Option (EndHookCall CI CRI EI) :=
  match frame_output, frame_input with
  | .Call outcome, .Call i => some (.call_end i outcome)
  | .Create outcome, .Create i => some (.create_end i outcome)
  | .EOFCreate outcome, .EOFCreate i => some (.eofcreate_end i outcome)
  | _, _ => none

/-- Result of initializing a frame, `FrameOrResultGen`: a live child frame
or an immediate result. -/
inductive FrameOrResult (F : Type) where
  | Frame (frame : F)
  | Result (result : FrameResult)

/-- Inspector hook invocations made by frame initialization. -/
inductive InitEvent (CI CRI EI : Type) where
  | frame_end_hook (call : EndHookCall CI CRI EI)
  | interp_init_hook

/-- Mirrors `InspectorEthFrame::init`: ask the inspector's frame-start hook
first; a synthetic result is returned immediately, otherwise delegate to the
inner `EthFrame` initialization (a parameter, as `EthFrame` lives outside
`src/`), then notify the inspector: `frame_end` on an immediate result,
interpreter initialization on a live frame. -/
def InspectorEthFrame.init {CI CRI EI Inner F : Type}
    (inner_init : Inner → FrameInput CI CRI EI → Inner × FrameOrResult F)
    (ctx : InspectorContext CI CRI EI Inner) (frame_input : FrameInput CI CRI EI) :
    Option (InspectorContext CI CRI EI Inner × FrameOrResult F × List (InitEvent CI CRI EI)) :=
  match ctx.frame_start frame_input with
  | (ctx1, some output) => some (ctx1, .Result output, [])
  | (ctx1, none) =>
    let (inner2, ret) := inner_init ctx1.inner frame_input
    let ctx2 := { ctx1 with inner := inner2 }
    match ret with
    | .Result res =>
      match ctx2.frame_end res with
      | none => none
      | some (ctx3, hook) => some (ctx3, .Result res, [.frame_end_hook hook])
    | .Frame f => some (ctx2, .Frame f, [.interp_init_hook])

/-- Mirrors `InspectorEthFrame::init_first`; its body is the same wiring as
`init` with `EthFrame::init_first` as the inner initializer. -/
def InspectorEthFrame.init_first {CI CRI EI Inner F : Type}
    (inner_init_first : Inner → FrameInput CI CRI EI → Inner × FrameOrResult F)
    (ctx : InspectorContext CI CRI EI Inner) (frame_input : FrameInput CI CRI EI) :
    Option (InspectorContext CI CRI EI Inner × FrameOrResult F × List (InitEvent CI CRI EI)) :=
  match ctx.frame_start frame_input with
  | (ctx1, some output) => some (ctx1, .Result output, [])
  | (ctx1, none) =>
    let (inner2, ret) := inner_init_first ctx1.inner frame_input
    let ctx2 := { ctx1 with inner := inner2 }
    match ret with
    | .Result res =>
      match ctx2.frame_end res with
      | none => none
      | some (ctx3, hook) => some (ctx3, .Result res, [.frame_end_hook hook])
    | .Frame f => some (ctx2, .Frame f, [.interp_init_hook])

end Insp

/-! Concrete sample values used by witnesses and counterexamples. -/

/-- A fresh gas meter with limit 100. -/
def sample_gas : Gas := { limit := 100, remaining := 100, refunded := 0 }

/-- An interpreter about to run an empty (STOP-padded) bytecode. -/
def sample_interp : NewInterpreter :=
  { bytecode := { bytecode := [], pc := 0 }
    stack := []
    memory := []
    control := { instruction_result := .Continue, next_action := .None, gas := sample_gas } }

/-- A gasprice host whose effective gas price is `basefee + 3` over basefee 7. -/
def TxInfo.sample_host : TxInfo.GaspriceHost :=
  { env := { block := { basefee := 7 }, tx := { effective_gas_price := fun b => b + 3 } } }

namespace PostExecution

/-- A sample emitted log. -/
def sample_log : Log := { address := 1, topics := [], data := [] }

/-- A journaled state holding exactly one transaction log. -/
def sample_js : JournaledState := { accounts := [], logs := [sample_log], journal := [] }

/-- A sample environment. -/
def sample_env : Env := { block := { coinbase := 5, basefee := 0 }, effective_gas_price := 0 }

/-- A backing database of empty accounts that never fails. -/
def sample_db : Address → Except Nat Account :=
  fun _ => .ok { balance := 0, touched := false }

/-- A backing database that fails every lookup with error `7`. -/
def sample_fail_db : Address → Except Nat Account := fun _ => .error 7

/-- A context with one emitted log and no pending error. -/
def sample_ctx : Context Nat :=
  { journaled_state := sample_js, error := none, env := sample_env, db := sample_db }

/-- The same context with a pending sticky database error `42`. -/
def sample_err_ctx : Context Nat :=
  { journaled_state := sample_js, error := some 42, env := sample_env, db := sample_db }

/-- A context with a pending sticky error `42` over the failing database. -/
def sample_failing_ctx : Context Nat :=
  { journaled_state := sample_js, error := some 42, env := sample_env, db := sample_fail_db }

/-- `sample_ctx` after successfully rewarding the coinbase with 0: account 5
loaded from the database and marked touched. -/
def sample_ctx1 : Context Nat :=
  { journaled_state :=
      { accounts := [(5, { balance := 0, touched := true })]
        logs := [sample_log]
        journal := [] }
    error := none
    env := sample_env
    db := sample_db }

/-- `sample_err_ctx` after successfully rewarding the coinbase with 0. -/
def sample_err_ctx1 : Context Nat :=
  { journaled_state :=
      { accounts := [(5, { balance := 0, touched := true })]
        logs := [sample_log]
        journal := [] }
    error := some 42
    env := sample_env
    db := sample_db }

/-- A frame result that reverted with no output. -/
def sample_revert_result : FrameResult :=
  .Call { result := { result := .Revert, output := [], gas := { limit := 10, remaining := 4, refunded := 0 } }
          memory_offset := (0, 0) }

/-- A frame result that stopped successfully. -/
def sample_stop_result : FrameResult :=
  .Call { result := { result := .Stop, output := [], gas := { limit := 10, remaining := 4, refunded := 0 } }
          memory_offset := (0, 0) }

/-- A synthetic call outcome an inspector may return at frame start. -/
def sample_call_outcome : CallOutcome :=
  { result := { result := .Stop, output := [], gas := { limit := 0, remaining := 0, refunded := 0 } }
    memory_offset := (0, 0) }

end PostExecution

/-- An instruction table whose every entry halts the interpreter with
`Stop`. -/
def sample_table : Byte → NewInterpreter × Unit → NewInterpreter × Unit :=
  fun _ st => ({ st.1 with control := st.1.control.set_instruction_result .Stop }, st.2)

/-- The sample interpreter already halted with `Stop`. -/
def sample_stopped : NewInterpreter :=
  { sample_interp with control := { sample_interp.control with instruction_result := .Stop } }

namespace Insp

/-- The identity instruction (changes nothing, never panics). -/
def id_instr : InspState → Option InspState := fun st => some st

/-- A main instruction table of identity instructions. -/
def sample_main : Byte → InspState → Option InspState := fun _ => id_instr

/-- LOGn base instructions that change nothing. -/
def sample_logs : Fin 5 → InspState → Option InspState := fun _ => id_instr

/-- An inspector-wrapped state over the sample interpreter and a journal
holding one emitted log. -/
def sample_state : InspState :=
  { interp := sample_interp, journal := PostExecution.sample_js, events := [] }

/-- Inspector hooks whose call hook returns a synthetic outcome. -/
def sample_hooks_some : InspectorHooks Nat Nat Nat :=
  { call := fun _ => some PostExecution.sample_call_outcome
    create := fun _ => none
    eofcreate := fun _ => none }

/-- Inspector hooks that never intervene. -/
def sample_hooks_none : InspectorHooks Nat Nat Nat :=
  { call := fun _ => none, create := fun _ => none, eofcreate := fun _ => none }

/-- An inspector context whose call hook intervenes. -/
def sample_ctx_some : InspectorContext Nat Nat Nat Nat :=
  { inner := 0, inspector := sample_hooks_some, frame_input_stack := [] }

/-- An inspector context whose hooks never intervene. -/
def sample_ctx_none : InspectorContext Nat Nat Nat Nat :=
  { inner := 0, inspector := sample_hooks_none, frame_input_stack := [] }

/-- An inner frame initializer producing a live frame and bumping the inner
state, to show `init` ignores it when the hook intervenes. -/
def sample_inner_init : Nat → FrameInput Nat Nat Nat → Nat × FrameOrResult Nat :=
  fun n _ => (n + 1, .Frame 9)

end Insp

/-! Theorems settling the claims. -/

/-- A result lets the interpreter loop continue exactly when it is
`Continue`. -/
theorem is_continue_iff (r : InstructionResult) :
    r.is_continue = true ↔ r = .Continue := by
  cases r <;> simp [InstructionResult.is_continue]

/-- C4: the post-execution `refund` step applies the final refund cap exactly
once per transaction, after adding the EIP-7702 refund, and selects the
London cap (refund clamped to spent/5) if and only if the active spec is
London or later, otherwise the pre-London cap (spent/2). -/
theorem refund_caps_once_with_london_cap :
    ∀ (spec : SpecId) (gas : Gas) (eip7702_refund : Int),
      refund spec gas eip7702_refund =
        { gas with refunded :=
            (min (gas.refunded + eip7702_refund)
              ((gas.spent / (if SpecId.LONDON.num ≤ spec.num then 5 else 2) : Nat) : Int)) } ∧
      (spec.is_enabled_in .LONDON = true ↔ SpecId.LONDON.num ≤ spec.num) := by
  intro spec gas eip7702_refund
  constructor
  · simp [refund, Gas.record_refund, Gas.set_final_refund, Gas.spent, SpecId.is_enabled_in]
  · simp [SpecId.is_enabled_in]

/-- C8: for every interpreter state, `StepPrintInspector::step` reports depth
0 and refund 0 unconditionally, regardless of the actual call depth or the
gas refund counter. -/
theorem step_print_inspector_zero_depth_refund :
    ∀ interp : NewInterpreter,
      (Insp.StepPrintInspector.step interp).depth = 0 ∧
      (Insp.StepPrintInspector.step interp).refund = 0 := by
  intro interp
  exact ⟨rfl, rfl⟩

/-- C9: `Frame::created_address` returns `Some` exactly when the frame is a
`Create` frame; for an `EOFCreate` frame it returns `None` and `is_create`
returns `false`, even though the `EOFCreate` frame stores a
`created_address` field. -/
theorem frame_created_address_create_only :
    ∀ (W : Type) (fr : Frame W),
      ((fr.created_address).isSome = true ↔ fr.is_create = true) ∧
      (∀ ef : EOFCreateFrame W,
        (Frame.EOFCreate ef : Frame W).created_address = none ∧
        (Frame.EOFCreate ef : Frame W).is_create = false) := by
  intro W fr
  constructor
  · cases fr <;> simp [Frame.created_address, Frame.is_create]
  · intro ef
    exact ⟨rfl, rfl⟩

/-- C10: the deposit-transaction accessors are partial functions that panic
(`none`): `CommonTxFields::nonce` on every `TxDeposit`; the typed accessors
`legacy`, `eip2930`, `eip1559`, `eip4844`, `eip7702` on every
`OpTransaction::Deposit`; and `OpTxTrait::deposit` on every
`OpTransaction::Base`. -/
theorem deposit_accessors_panic :
    (∀ d : Op.TxDeposit, d.nonce = none) ∧
    (∀ (T L : Type) (acc : T → L) (d : Op.TxDeposit),
      Op.OpTransaction.legacy acc (Op.OpTransaction.Deposit d) = none ∧
      Op.OpTransaction.eip2930 acc (Op.OpTransaction.Deposit d) = none ∧
      Op.OpTransaction.eip1559 acc (Op.OpTransaction.Deposit d) = none ∧
      Op.OpTransaction.eip4844 acc (Op.OpTransaction.Deposit d) = none ∧
      Op.OpTransaction.eip7702 acc (Op.OpTransaction.Deposit d) = none) ∧
    (∀ (T : Type) (tx : T) (enveloped : Option Bytes),
      Op.OpTransaction.deposit (Op.OpTransaction.Base tx enveloped) = none) := by
  refine ⟨fun d => rfl, fun T L acc d => ⟨rfl, rfl, rfl, rfl, rfl⟩, fun T tx enveloped => rfl⟩

/-- C7: whenever the `gasprice` opcode handler executes with sufficient gas
and at least two free stack slots, it grows the stack by exactly two words:
it pushes the transaction's effective gas price (computed against the block
basefee) and then pushes the constant zero, leaving zero on top of the stack
above the gas price. -/
theorem gasprice_pushes_price_then_zero :
    ∀ (interp : NewInterpreter) (host : TxInfo.GaspriceHost),
      TxInfo.gasBASE ≤ interp.control.gas.remaining →
      interp.stack.length + 2 ≤ STACK_LIMIT →
      (TxInfo.gasprice interp host).stack =
        0 :: host.env.tx.effective_gas_price host.env.block.basefee :: interp.stack ∧
      (TxInfo.gasprice interp host).stack.length = interp.stack.length + 2 := by
  intro interp host hgas hstack
  simp only [STACK_LIMIT] at hstack
  have h1 : interp.stack.length < STACK_LIMIT := by simp only [STACK_LIMIT]; omega
  have h2 : interp.stack.length + 1 < STACK_LIMIT := by simp only [STACK_LIMIT]; omega
  have hs : (TxInfo.gasprice interp host).stack =
      0 :: host.env.tx.effective_gas_price host.env.block.basefee :: interp.stack := by
    simp [TxInfo.gasprice, Gas.record_cost, Stack.push, hgas, h1, h2]
  exact ⟨hs, by rw [hs]; simp⟩

/-- Witness for C7: the concrete sample interpreter has gas and room for two
words, and `gasprice` leaves `[0, 10]` on its empty stack (effective gas
price `7 + 3 = 10` below the zero word). -/
theorem gasprice_pushes_price_then_zero_witness :
    TxInfo.gasBASE ≤ sample_interp.control.gas.remaining ∧
    sample_interp.stack.length + 2 ≤ STACK_LIMIT ∧
    (TxInfo.gasprice sample_interp TxInfo.sample_host).stack = [0, 10] := by
  refine ⟨by decide, by decide, ?_⟩
  have h := gasprice_pushes_price_then_zero sample_interp TxInfo.sample_host
    (by decide) (by decide)
  simpa [sample_interp, TxInfo.sample_host] using h.1

/-- A successful `reward_beneficiary` leaves the sticky error slot
unchanged: it only touches the journaled state. -/
theorem reward_beneficiary_ok_error_eq {E : Type}
    {ctx ctx' : PostExecution.Context E} {rewards : Nat}
    (h : PostExecution.reward_beneficiary ctx rewards = Except.ok ctx') :
    ctx'.error = ctx.error := by
  simp only [PostExecution.reward_beneficiary] at h
  cases hload : ctx.journaled_state.load_account ctx.db ctx.env.block.coinbase with
  | error e => rw [hload] at h; simp at h
  | ok p =>
    rw [hload] at h
    obtain ⟨js, acc⟩ := p
    simp at h
    rw [← h]

/-- Counterexample to C3 as stated: at a concrete context with sticky error
`42` pending but whose coinbase load fails with database error `7`, `output`
with non-lazy rewarding returns `7` — a database error, but not the pending
sticky error — because `reward_beneficiary(context, rewards)?` propagates
its own load error before `take_error()?` runs. -/
theorem output_sticky_error_counterexample :
    PostExecution.sample_failing_ctx.error = some 42 ∧
    (PostExecution.output .CANCUN PostExecution.sample_failing_ctx
        PostExecution.sample_stop_result false).2 = .err 7 ∧
    (PostExecution.OutputResult.err 7 : PostExecution.OutputResult Nat) ≠ .err 42 := by
  refine ⟨rfl, by decide, by decide⟩

/-- C3 (amended): if a sticky database error is pending when post-execution
`output` runs, `output` produces no `ResultAndState` (no result, state
changes, or logs are returned): with lazy rewarding it returns the pending
error; with non-lazy rewarding it returns the pending error when the
beneficiary reward succeeds, and the beneficiary load's own database error
when that load fails. -/
theorem output_sticky_error_or_load_error :
    ∀ (E : Type) (spec : SpecId) (ctx : PostExecution.Context E)
      (result : PostExecution.FrameResult) (e : E),
      ctx.error = some e →
      ((PostExecution.output spec ctx result true).2 = .err e) ∧
      (∀ ctx', PostExecution.reward_beneficiary ctx
          (PostExecution.reward spec ctx.env result.gas) = Except.ok ctx' →
        (PostExecution.output spec ctx result false).2 = .err e) ∧
      (∀ e', PostExecution.reward_beneficiary ctx
          (PostExecution.reward spec ctx.env result.gas) = Except.error e' →
        (PostExecution.output spec ctx result false).2 = .err e') := by
  intro E spec ctx result e herr
  refine ⟨?_, ?_, ?_⟩
  · simp [PostExecution.output, PostExecution.Context.take_error, herr]
  · intro ctx' hok
    have herr' : ctx'.error = some e := by
      rw [reward_beneficiary_ok_error_eq hok]; exact herr
    simp [PostExecution.output, PostExecution.Context.take_error, hok, herr']
  · intro e' herrb
    simp [PostExecution.output, herrb]

/-- Witness for C3 (amended): with pending error `42` over the never-failing
database, `output` returns `42` both lazily and after a successful
beneficiary reward; over the failing database, it returns the load error
`7`. -/
theorem output_sticky_error_or_load_error_witness :
    PostExecution.sample_err_ctx.error = some 42 ∧
    (PostExecution.output .CANCUN PostExecution.sample_err_ctx
        PostExecution.sample_stop_result true).2 = .err 42 ∧
    PostExecution.reward_beneficiary PostExecution.sample_err_ctx
        (PostExecution.reward .CANCUN PostExecution.sample_err_ctx.env
          PostExecution.sample_stop_result.gas) = Except.ok PostExecution.sample_err_ctx1 ∧
    (PostExecution.output .CANCUN PostExecution.sample_err_ctx
        PostExecution.sample_stop_result false).2 = .err 42 ∧
    PostExecution.reward_beneficiary PostExecution.sample_failing_ctx
        (PostExecution.reward .CANCUN PostExecution.sample_failing_ctx.env
          PostExecution.sample_stop_result.gas) = Except.error 7 ∧
    (PostExecution.output .CANCUN PostExecution.sample_failing_ctx
        PostExecution.sample_stop_result false).2 = .err 7 := by
  have h := output_sticky_error_or_load_error Nat .CANCUN PostExecution.sample_err_ctx
    PostExecution.sample_stop_result 42 rfl
  have h2 := output_sticky_error_or_load_error Nat .CANCUN PostExecution.sample_failing_ctx
    PostExecution.sample_stop_result 42 rfl
  refine ⟨rfl, h.1, rfl, h.2.1 PostExecution.sample_err_ctx1 rfl, rfl, h2.2.2 7 rfl⟩

/-- Counterexample to C2 as stated: at a concrete error-free context whose
transaction emitted one log, with a reverted frame result, `output` returns
a `ResultAndState` that carries no logs at all — the third component of the
constructed struct is the beneficiary rewards, and the `Revert` execution
result has no log field — so the returned value does not consist of the
execution result, the state changes, and the transaction logs. -/
theorem output_drops_logs_counterexample :
    (PostExecution.output .CANCUN PostExecution.sample_ctx
        PostExecution.sample_revert_result true).2 =
      .ok { result := .Revert 6 [], state := [], rewards := 0 } ∧
    PostExecution.sample_ctx.journaled_state.finalize.2 = [PostExecution.sample_log] ∧
    PostExecution.ExecutionResult.logs_of (.Revert 6 []) = [] ∧
    ([] : List PostExecution.Log) ≠ [PostExecution.sample_log] := by
  refine ⟨by decide, rfl, rfl, by decide⟩

/-- C2 (amended): for every frame result that post-execution `output`
processes without a pending database error and — when beneficiary rewarding
is not lazy — with a successful coinbase account load, the value returned is
a `ResultAndState` consisting of the execution result, the state changes,
and the beneficiary rewards; the transaction logs are carried only inside a
`Success` execution result (a `Revert` or `Halt` result returns none), the
internal instruction-result flags panic, and a failed coinbase load instead
propagates its database error. -/
theorem output_returns_result_state_rewards :
    ∀ (E : Type) (spec : SpecId) (ctx ctx1 : PostExecution.Context E)
      (result : PostExecution.FrameResult) (lazy_reward : Bool),
      ctx.error = none →
      (if lazy_reward then Except.ok ctx
        else PostExecution.reward_beneficiary ctx
          (PostExecution.reward spec ctx.env result.gas)) = Except.ok ctx1 →
      (PostExecution.output spec ctx result lazy_reward).2 =
        (let rewards := PostExecution.reward spec ctx.env result.gas
         let gas_refunded := result.gas.refunded.toNat
         let final_gas_used := result.gas.spent - gas_refunded
         let state := ctx1.journaled_state.finalize.1
         let logs := ctx1.journaled_state.finalize.2
         match PostExecution.toSuccessOrHalt result.into_interpreter_result.result with
         | .Success reason =>
           .ok { result := .Success reason final_gas_used gas_refunded logs result.output
                 state := state
                 rewards := rewards }
         | .Revert =>
           .ok { result := .Revert final_gas_used result.output.into_data
                 state := state
                 rewards := rewards }
         | .Halt reason =>
           .ok { result := .Halt reason final_gas_used, state := state, rewards := rewards }
         | .FatalExternalError => .panicked
         | .Internal => .panicked) := by
  intro E spec ctx ctx1 result lazy_reward herr hok
  cases lazy_reward with
  | true =>
    replace hok : ctx = ctx1 := by simpa using hok
    subst hok
    simp [PostExecution.output, PostExecution.Context.take_error,
      PostExecution.JournaledState.finalize, herr]
    cases PostExecution.toSuccessOrHalt result.into_interpreter_result.result <;> rfl
  | false =>
    replace hok : PostExecution.reward_beneficiary ctx
        (PostExecution.reward spec ctx.env result.gas) = Except.ok ctx1 := by
      simpa using hok
    have herr1 : ctx1.error = none := by
      rw [reward_beneficiary_ok_error_eq hok]; exact herr
    simp [PostExecution.output, PostExecution.Context.take_error,
      PostExecution.JournaledState.finalize, hok, herr1]
    cases PostExecution.toSuccessOrHalt result.into_interpreter_result.result <;> rfl

/-- Witness for C2 (amended): on the concrete error-free context with a
stopped frame and non-lazy rewarding, the beneficiary load succeeds and
`output` returns the `Success` result (carrying the log), the finalized
state and the rewards. -/
theorem output_returns_result_state_rewards_witness :
    PostExecution.sample_ctx.error = none ∧
    (if false then Except.ok PostExecution.sample_ctx
      else PostExecution.reward_beneficiary PostExecution.sample_ctx
        (PostExecution.reward .CANCUN PostExecution.sample_ctx.env
          PostExecution.sample_stop_result.gas)) = Except.ok PostExecution.sample_ctx1 ∧
    (PostExecution.output .CANCUN PostExecution.sample_ctx
        PostExecution.sample_stop_result false).2 =
      .ok { result := .Success .Stop 6 0 [PostExecution.sample_log] (.Call [])
            state := [(5, { balance := 0, touched := true })]
            rewards := 0 } := by
  refine ⟨rfl, rfl, ?_⟩
  have h := output_returns_result_state_rewards Nat .CANCUN PostExecution.sample_ctx
    PostExecution.sample_ctx1 PostExecution.sample_stop_result false rfl rfl
  rw [h]
  decide

/-- C1: for every instruction table and host, `NewInterpreter::run` first
sets the loop control to `(next_action = None, instruction_result =
Continue)`, then repeatedly executes one instruction while the instruction
result is `Continue`, each step reading the opcode at the current program
counter and advancing the program counter by one before dispatching to the
table entry; when the loop exits, `run` yields the pending next action if
one was set, and otherwise a `Return` action with the current instruction
result, empty output and the interpreter's current gas. -/
theorem run_fetch_execute_yield :
    ∀ (H : Type) (table : Byte → NewInterpreter × H → NewInterpreter × H)
      (fuel : Nat) (st : NewInterpreter × H),
      (NewInterpreter.run_start st).1.control.instruction_result = .Continue ∧
      (NewInterpreter.run_start st).1.control.next_action = .None ∧
      (∀ (n : Nat) (st' : NewInterpreter × H),
        st'.1.control.instruction_result = .Continue →
        NewInterpreter.runLoop table (n + 1) st' =
          NewInterpreter.runLoop table n
            (table st'.1.bytecode.opcode
              ({ st'.1 with bytecode := st'.1.bytecode.relative_jump 1 }, st'.2))) ∧
      (∀ (n : Nat) (st' : NewInterpreter × H),
        st'.1.control.instruction_result ≠ .Continue →
        NewInterpreter.runLoop table n st' = st') ∧
      ((NewInterpreter.run table fuel st).1 =
        if (NewInterpreter.runLoop table fuel
            (NewInterpreter.run_start st)).1.control.next_action.is_some
        then (NewInterpreter.runLoop table fuel
            (NewInterpreter.run_start st)).1.control.next_action
        else .Return
          { result := (NewInterpreter.runLoop table fuel
              (NewInterpreter.run_start st)).1.control.instruction_result
            output := []
            gas := (NewInterpreter.runLoop table fuel
              (NewInterpreter.run_start st)).1.control.gas }) := by
  intro H table fuel st
  refine ⟨rfl, rfl, ?_, ?_, ?_⟩
  · intro n st' h
    have hc : st'.1.control.instruction_result.is_continue = true := by
      rw [h]; rfl
    simp [NewInterpreter.runLoop, hc, NewInterpreter.step]
  · intro n st' h
    cases n with
    | zero => rfl
    | succ n =>
      have hc : st'.1.control.instruction_result.is_continue = false := by
        rcases hr : st'.1.control.instruction_result <;>
          simp_all [InstructionResult.is_continue]
      simp [NewInterpreter.runLoop, hc]
  · by_cases hA : (NewInterpreter.runLoop table fuel
        (NewInterpreter.run_start st)).1.control.next_action.is_some = true
    · simp [NewInterpreter.run, hA]
    · simp only [Bool.not_eq_true] at hA
      simp [NewInterpreter.run, hA]

/-- Witness for C1 at the concrete sample interpreter and an all-Stop table:
the loop step consumes the opcode at the program counter, an already-halted
state is left untouched, and `run` yields a `Return` action carrying `Stop`,
empty output and the untouched gas. -/
theorem run_fetch_execute_yield_witness :
    sample_interp.control.instruction_result = .Continue ∧
    NewInterpreter.runLoop sample_table 1 (sample_interp, ()) =
      NewInterpreter.runLoop sample_table 0
        (sample_table sample_interp.bytecode.opcode
          ({ sample_interp with bytecode := sample_interp.bytecode.relative_jump 1 }, ())) ∧
    NewInterpreter.runLoop sample_table 3 (sample_stopped, ()) = (sample_stopped, ()) ∧
    (NewInterpreter.run sample_table 2 (sample_interp, ())).1 =
      .Return { result := .Stop, output := [], gas := sample_gas } := by
  have h := run_fetch_execute_yield Unit sample_table 2 (sample_interp, ())
  refine ⟨rfl, h.2.2.1 0 (sample_interp, ()) rfl,
    h.2.2.2.1 3 (sample_stopped, ()) (by decide), ?_⟩
  rw [h.2.2.2.2]
  decide

/-- C5: every instruction executed through the inspector-wrapped table
invokes the inspector's step hook on the interpreter before the underlying
instruction runs and its step-end hook after it runs; and each of LOG0..LOG4
is the log wrapper around the corresponding base log instruction, which,
when the instruction completes with result `Continue`, additionally hands
the most recently emitted log to the inspector's log hook. -/
theorem inspector_wraps_step_hooks_and_log :
    (∀ (insn : Insp.InspectorInstruction) (st st2 : Insp.InspState),
      insn.instruction (st.emit .step) = some st2 →
      insn.exec st = some (st2.emit .step_end)) ∧
    (∀ (insn : Insp.InspectorInstruction) (st : Insp.InspState),
      insn.instruction (st.emit .step) = none → insn.exec st = none) ∧
    (∀ (main_table : Byte → Insp.InspState → Option Insp.InspState)
       (log_instr : Fin 5 → Insp.InspState → Option Insp.InspState)
       (sd_instr : Insp.InspState → Option Insp.InspState) (n : Fin 5),
      (Insp.InspectorInstructionProvider.new main_table log_instr sd_instr
          (Insp.log_opcode n)).instruction = Insp.inspector_log (log_instr n)) ∧
    (∀ (main_table : Byte → Insp.InspState → Option Insp.InspState)
       (log_instr : Fin 5 → Insp.InspState → Option Insp.InspState)
       (sd_instr : Insp.InspState → Option Insp.InspState) (n : Fin 5)
       (st st2 : Insp.InspState) (l : PostExecution.Log),
      log_instr n (st.emit .step) = some st2 →
      st2.interp.control.instruction_result = .Continue →
      st2.journal.logs.getLast? = some l →
      (Insp.InspectorInstructionProvider.new main_table log_instr sd_instr
          (Insp.log_opcode n)).exec st =
        some ((st2.emit (.log_hook l)).emit .step_end)) := by
  have htab : ∀ (main_table : Byte → Insp.InspState → Option Insp.InspState)
      (log_instr : Fin 5 → Insp.InspState → Option Insp.InspState)
      (sd_instr : Insp.InspState → Option Insp.InspState) (n : Fin 5),
      (Insp.InspectorInstructionProvider.new main_table log_instr sd_instr
          (Insp.log_opcode n)).instruction = Insp.inspector_log (log_instr n) := by
    intro main_table log_instr sd_instr n
    fin_cases n <;> rfl
  refine ⟨?_, ?_, htab, ?_⟩
  · intro insn st st2 h
    simp [Insp.InspectorInstruction.exec, h]
  · intro insn st h
    simp [Insp.InspectorInstruction.exec, h]
  · intro main_table log_instr sd_instr n st st2 l h hc hl
    simp [Insp.InspectorInstruction.exec, htab main_table log_instr sd_instr n,
      Insp.inspector_log, h, hc, hl]

/-- Witness for C5: with identity base instructions over the sample state
(whose journal holds one log and whose result is `Continue`), the wrapped
instruction emits step then step-end, and the LOG0 table entry additionally
emits the log hook carrying the emitted log, between the instruction and the
step-end hook. -/
theorem inspector_wraps_step_hooks_and_log_witness :
    Insp.id_instr (Insp.sample_state.emit .step) = some (Insp.sample_state.emit .step) ∧
    Insp.sample_state.interp.control.instruction_result = .Continue ∧
    Insp.sample_state.journal.logs.getLast? = some PostExecution.sample_log ∧
    (Insp.InspectorInstruction.mk Insp.id_instr).exec Insp.sample_state =
      some ((Insp.sample_state.emit .step).emit .step_end) ∧
    (Insp.InspectorInstructionProvider.new Insp.sample_main Insp.sample_logs
        Insp.id_instr (Insp.log_opcode 0)).exec Insp.sample_state =
      some (((Insp.sample_state.emit .step).emit
        (.log_hook PostExecution.sample_log)).emit .step_end) := by
  refine ⟨rfl, rfl, rfl, ?_, ?_⟩
  · exact inspector_wraps_step_hooks_and_log.1 ⟨Insp.id_instr⟩ Insp.sample_state
      (Insp.sample_state.emit .step) rfl
  · exact inspector_wraps_step_hooks_and_log.2.2.2 Insp.sample_main Insp.sample_logs
      Insp.id_instr 0 Insp.sample_state (Insp.sample_state.emit .step)
      PostExecution.sample_log rfl rfl rfl

/-- C6: for every frame initialization through `InspectorEthFrame::init` or
`init_first`, if the inspector's frame-start hook returns a synthetic result,
that result is returned immediately, no interpreter frame is constructed and
the inner execution state is unaffected (the outcome is independent of the
inner initializer and the context is returned unchanged); if the hook
returns no result, the frame input is recorded on the stack so that the
matching `frame_end` later hands it, with the frame's outcome, to the
frame-end hook. -/
theorem inspector_frame_start_synthetic_or_record :
    ∀ (CI CRI EI Inner F : Type)
      (ctx : Insp.InspectorContext CI CRI EI Inner)
      (fi : Insp.FrameInput CI CRI EI),
      (∀ (r : PostExecution.FrameResult) (ctx' : Insp.InspectorContext CI CRI EI Inner),
        ctx.frame_start fi = (ctx', some r) →
        ctx' = ctx ∧
        ∀ (inner_init inner_init_first :
            Inner → Insp.FrameInput CI CRI EI → Inner × Insp.FrameOrResult F),
          Insp.InspectorEthFrame.init inner_init ctx fi = some (ctx, .Result r, []) ∧
          Insp.InspectorEthFrame.init_first inner_init_first ctx fi =
            some (ctx, .Result r, [])) ∧
      (∀ ctx', ctx.frame_start fi = (ctx', none) →
        ctx'.inner = ctx.inner ∧
        ctx'.frame_input_stack = fi :: ctx.frame_input_stack ∧
        ∀ fo : PostExecution.FrameResult,
          ctx'.frame_end fo =
            (Insp.end_hook_of fi fo).map
              (fun hk => ({ ctx' with frame_input_stack := ctx.frame_input_stack }, hk))) := by
  intro CI CRI EI Inner F ctx fi
  constructor
  · intro r ctx' h
    cases hX : ctx.frame_start_hook fi with
    | some res =>
      have hfs : ctx.frame_start fi = (ctx, some res) := by
        simp [Insp.InspectorContext.frame_start, hX]
      rw [hfs] at h
      obtain ⟨h1, h2⟩ := Prod.mk.injEq .. ▸ h
      refine ⟨h1.symm, ?_⟩
      intro inner_init inner_init_first
      constructor
      · simp [Insp.InspectorEthFrame.init, hfs, Option.some.inj h2]
      · simp [Insp.InspectorEthFrame.init_first, hfs, Option.some.inj h2]
    | none =>
      have hfs : ctx.frame_start fi =
          ({ ctx with frame_input_stack := fi :: ctx.frame_input_stack }, none) := by
        simp [Insp.InspectorContext.frame_start, hX]
      rw [hfs] at h
      simp at h
  · intro ctx' h
    cases hX : ctx.frame_start_hook fi with
    | some res =>
      have hfs : ctx.frame_start fi = (ctx, some res) := by
        simp [Insp.InspectorContext.frame_start, hX]
      rw [hfs] at h
      simp at h
    | none =>
      have hfs : ctx.frame_start fi =
          ({ ctx with frame_input_stack := fi :: ctx.frame_input_stack }, none) := by
        simp [Insp.InspectorContext.frame_start, hX]
      rw [hfs] at h
      obtain ⟨h1, -⟩ := Prod.mk.injEq .. ▸ h
      subst h1
      refine ⟨rfl, rfl, ?_⟩
      intro fo
      cases fo <;> cases fi <;>
        simp [Insp.InspectorContext.frame_end, Insp.end_hook_of]

/-- Witness for C6: with the concrete intervening inspector the synthetic
call outcome is returned at once and `init` ignores the inner initializer;
with the non-intervening inspector the call input `7` is recorded and
`frame_end` hands it back with the outcome. -/
theorem inspector_frame_start_synthetic_or_record_witness :
    Insp.sample_ctx_some.frame_start (.Call 7) =
      (Insp.sample_ctx_some, some (.Call PostExecution.sample_call_outcome)) ∧
    Insp.InspectorEthFrame.init Insp.sample_inner_init Insp.sample_ctx_some (.Call 7) =
      some (Insp.sample_ctx_some, .Result (.Call PostExecution.sample_call_outcome), []) ∧
    Insp.sample_ctx_none.frame_start (.Call 7) =
      ({ Insp.sample_ctx_none with frame_input_stack := [.Call 7] }, none) ∧
    ({ Insp.sample_ctx_none with
        frame_input_stack := [.Call 7] } : Insp.InspectorContext Nat Nat Nat Nat).frame_end
        (.Call PostExecution.sample_call_outcome) =
      some ({ Insp.sample_ctx_none with frame_input_stack := [] },
        .call_end 7 PostExecution.sample_call_outcome) := by
  have ha := (inspector_frame_start_synthetic_or_record Nat Nat Nat Nat Nat
    Insp.sample_ctx_some (.Call 7)).1 (.Call PostExecution.sample_call_outcome)
    Insp.sample_ctx_some rfl
  have hb := (inspector_frame_start_synthetic_or_record Nat Nat Nat Nat Nat
    Insp.sample_ctx_none (.Call 7)).2
    { Insp.sample_ctx_none with frame_input_stack := [.Call 7] } rfl
  refine ⟨rfl, (ha.2 Insp.sample_inner_init Insp.sample_inner_init).1, rfl, ?_⟩
  have hc := hb.2.2 (.Call PostExecution.sample_call_outcome)
  simpa [Insp.end_hook_of] using hc

end Revm
